import Mathlib

/-!
Verification of the 7-zip archive-orchestration library (TypeScript sources
under `src/`): a shallow embedding of its path-safety gate
(`src/utils/pathValidation.ts`), error classifier (`src/types/errors.types.ts`),
`-slt` listing parser (`src/utils/sltParser.ts`), per-operation worker
(`src/core/archiveOps.ts`) and job scheduler (`src/core/archiveService.ts`),
followed by theorems settling the specification's claims about them.

JavaScript strings are modelled as Lean `String`/`List Char`; JavaScript
numbers appearing as sizes are modelled as `Option Int` where `none` stands
for `NaN` (the only non-integer value those code paths can produce);
machine-level floating point does not otherwise occur in the modelled code.
-/

/-! ## JavaScript string primitives used by the sources -/

/-- JS whitespace for `String.prototype.trim` / `parseInt` (the characters the
sources can meet in ASCII tool output, plus NBSP and BOM). -/
def isJsSpace (c : Char) : Bool :=
  c == ' ' || c == '\t' || c == '\n' || c == '\r' || c == '\x0b' || c == '\x0c' ||
  c == '\u00A0' || c == '\uFEFF'

/-- JS `String.prototype.trim`. -/
def jsTrim (s : String) : String :=
  String.mk (((s.toList.dropWhile isJsSpace).reverse.dropWhile isJsSpace).reverse)

/-- JS `haystack.includes(needle)` over char lists. -/
def listContainsSub (needle : List Char) : List Char → Bool
  | [] => needle.isEmpty
  | c :: rest => needle.isPrefixOf (c :: rest) || listContainsSub needle rest

/-- JS `haystack.includes(needle)` on strings. -/
def strContainsSub (s sub : String) : Bool :=
  listContainsSub sub.toList s.toList

/-- JS `haystack.indexOf(needle)` over char lists, accumulating the index. -/
def indexOfAux (needle : List Char) : List Char → Nat → Option Nat
  | [], i => if needle.isEmpty then some i else none
  | c :: rest, i =>
    if needle.isPrefixOf (c :: rest) then some i else indexOfAux needle rest (i + 1)

/-- JS `s.indexOf(sub)`: first occurrence, `none` for not found. -/
def strIndexOf (s sub : String) : Option Nat :=
  indexOfAux sub.toList s.toList 0

/-- JS `String.prototype.toLowerCase` (ASCII range, all the sources compare). -/
def toLowerStr (s : String) : String :=
  String.mk (s.toList.map Char.toLower)

/-- Digit-sequence value for `parseInt`. -/
def digitsVal (ds : List Char) : Nat :=
  ds.foldl (fun n c => n * 10 + (c.toNat - '0'.toNat)) 0

/-- Sign-and-digit-prefix part of `parseInt(v, 10)`: `none` models `NaN`. -/
def jsParseIntCore (cs : List Char) (sign : Int) : Option Int :=
  let ds := cs.takeWhile Char.isDigit
  if ds.isEmpty then none else some (sign * (digitsVal ds : Int))

/-- JS `parseInt(v, 10)`: skip leading whitespace, optional sign, then the
longest decimal-digit prefix; `none` models `NaN`. -/
def jsParseInt (s : String) : Option Int :=
  match s.toList.dropWhile isJsSpace with
  | '-' :: rest => jsParseIntCore rest (-1)
  | '+' :: rest => jsParseIntCore rest 1
  | cs => jsParseIntCore cs 1

/-- JS `output.split` on the regex for r-n or bare n: both separate lines; a lone carriage return stays in its line. -/
def splitLinesAux : List Char → List Char → List String
  | [], cur => [String.mk cur.reverse]
  | ['\r'], cur => [String.mk (('\r' :: cur).reverse)]
  | '\r' :: '\n' :: rest, cur => String.mk cur.reverse :: splitLinesAux rest []
  | '\r' :: c :: rest, cur => splitLinesAux (c :: rest) ('\r' :: cur)
  | '\n' :: rest, cur => String.mk cur.reverse :: splitLinesAux rest []
  | c :: rest, cur => splitLinesAux rest (c :: cur)

/-- Line splitting of tool output on a string. -/
def splitLinesJs (s : String) : List String :=
  splitLinesAux s.toList []

/-! ## Node `path` (posix flavour, the platform the service runs on) -/

namespace NodePath

/-- Node `path.sep` on posix. -/
def sepChar : Char := '/'

/-- Node `path.isAbsolute` over chars: a leading slash. -/
def isAbsoluteL : List Char → Bool
  | '/' :: _ => true
  | _ => false

/-- Split on `/`, keeping empty segments (as `p.split('/')` does). -/
def splitSegAux : List Char → List Char → List (List Char)
  | [], cur => [cur.reverse]
  | '/' :: rest, cur => cur.reverse :: splitSegAux rest []
  | c :: rest, cur => splitSegAux rest (c :: cur)

def splitSeg (cs : List Char) : List (List Char) :=
  splitSegAux cs []

/-- The segment stack of Node's `normalizeString`: `.` and empty segments are
dropped; `..` pops a poppable segment, else stays only above a relative root. -/
def normSegs (allowAboveRoot : Bool) : List (List Char) → List (List Char) → List (List Char)
  | [], acc => acc.reverse
  | s :: rest, acc =>
    if s.isEmpty || s == ['.'] then normSegs allowAboveRoot rest acc
    else if s == ['.', '.'] then
      match acc with
      | t :: acc' =>
        if t == ['.', '.'] then
          normSegs allowAboveRoot rest (if allowAboveRoot then s :: acc else acc)
        else normSegs allowAboveRoot rest acc'
      | [] => normSegs allowAboveRoot rest (if allowAboveRoot then [s] else [])
    else normSegs allowAboveRoot rest (s :: acc)

/-- Join segments with `/`. -/
def joinSegs : List (List Char) → List Char
  | [] => []
  | [s] => s
  | s :: rest => s ++ '/' :: joinSegs rest

/-- Node posix `path.normalize` over chars. -/
def normalizeChars (cs : List Char) : List Char :=
  if cs.isEmpty then ['.']
  else
    let abs := isAbsoluteL cs
    let trailing := cs.getLast? == some '/'
    let body := joinSegs (normSegs (!abs) (splitSeg cs) [])
    if body.isEmpty then
      if abs then ['/'] else if trailing then ['.', '/'] else ['.']
    else
      let body := if trailing then body ++ ['/'] else body
      if abs then '/' :: body else body

/-- Node posix `path.normalize`. -/
def normalize (p : String) : String :=
  String.mk (normalizeChars p.toList)

/-- Node posix `path.isAbsolute`. -/
def isAbsolute (p : String) : Bool :=
  isAbsoluteL p.toList

/-- Node posix `path.basename` (no suffix argument): the part after the last
`/`, ignoring trailing separators. -/
def basename (p : String) : String :=
  let cs := (p.toList.reverse.dropWhile (· == '/'))
  String.mk ((cs.takeWhile (· != '/')).reverse)

/-- Node posix `path.dirname`. -/
def dirname (p : String) : String :=
  let cs := p.toList
  let noBase := (cs.reverse.dropWhile (· == '/')).dropWhile (· != '/')
  let dir := noBase.dropWhile (· == '/')
  if dir.isEmpty then
    (if isAbsoluteL cs then "/" else ".")
  else
    String.mk dir.reverse

/-- Node posix `path.extname`: the suffix of the basename from its last dot;
empty for dotfiles, `.` and `..`. -/
def extname (p : String) : String :=
  let bn := (basename p).toList
  if bn == ['.'] || bn == ['.', '.'] then ""
  else
    let afterDot := bn.reverse.takeWhile (· != '.')
    if afterDot.length == bn.length then ""          -- no dot at all
    else if afterDot.length + 1 == bn.length then "" -- the only dot is the first character: a dotfile
    else String.mk ('.' :: afterDot.reverse)

end NodePath

/-! ## Error taxonomy (`src/types/errors.types.ts`) -/

/-- Enum `ArchiveErrorCode`. -/
inductive ArchiveErrorCode where
  | INVALID_PATH
  | PATH_TRAVERSAL
  | FILE_NOT_FOUND
  | DIRECTORY_NOT_FOUND
  | ENCRYPTED_ARCHIVE
  | CORRUPT_ARCHIVE
  | UNSUPPORTED_FORMAT
  | EMPTY_ARCHIVE
  | EXECUTABLE_NOT_FOUND
  | SPAWN_FAILED
  | PROCESS_TIMEOUT
  | OPERATION_IN_PROGRESS
  | OPERATION_CANCELLED
  | PERMISSION_DENIED
  | DISK_FULL
  | FILE_IN_USE
  | WARNING
  | FATAL_ERROR
  | COMMAND_LINE_ERROR
  | OUT_OF_MEMORY
  | USER_ABORTED
deriving DecidableEq, Repr

/-- Class `ArchiveError` (message, code and the `details` record's fields;
each subclass sets `name` and a fixed subset of the details). -/
structure ArchiveErrorL where
  name : String := "ArchiveError"
  message : String
  code : ArchiveErrorCode
  detailsArchivePath : Option String := none
  detailsExitCode : Option Int := none
  detailsStderr : Option String := none
  detailsMaliciousPath : Option String := none
  detailsExecutablePath : Option String := none
  detailsExtension : Option String := none
  detailsCurrentOperation : Option String := none
  detailsMissingFiles : Option (List String) := none
  detailsDirectoryPath : Option String := none
deriving DecidableEq, Repr

/-- Class `EncryptedArchiveError`. -/
def EncryptedArchiveError (archivePath : String) : ArchiveErrorL :=
  { name := "EncryptedArchiveError"
    message := "Archive is encrypted and cannot be processed: " ++ archivePath
    code := ArchiveErrorCode.ENCRYPTED_ARCHIVE
    detailsArchivePath := some archivePath }

/-- Class `PathTraversalError`. -/
def PathTraversalError (maliciousPath archivePath : String) : ArchiveErrorL :=
  { name := "PathTraversalError"
    message := "Path traversal detected in archive entry: " ++ maliciousPath
    code := ArchiveErrorCode.PATH_TRAVERSAL
    detailsMaliciousPath := some maliciousPath
    detailsArchivePath := some archivePath }

/-- Class `ExecutableNotFoundError`. -/
def ExecutableNotFoundError (executablePath : String) : ArchiveErrorL :=
  { name := "ExecutableNotFoundError"
    message := "7za executable not found at: " ++ executablePath
    code := ArchiveErrorCode.EXECUTABLE_NOT_FOUND
    detailsExecutablePath := some executablePath }

/-- Class `UnsupportedFormatError`. -/
def UnsupportedFormatError (archivePath extension : String) : ArchiveErrorL :=
  { name := "UnsupportedFormatError"
    message := "Unsupported archive format: " ++ extension ++ ". Only .zip is supported."
    code := ArchiveErrorCode.UNSUPPORTED_FORMAT
    detailsArchivePath := some archivePath
    detailsExtension := some extension }

/-- Class `OperationInProgressError`. -/
def OperationInProgressError (currentOperation : String) : ArchiveErrorL :=
  { name := "OperationInProgressError"
    message := "Cannot start new operation. A " ++ currentOperation ++
      " operation is already running."
    code := ArchiveErrorCode.OPERATION_IN_PROGRESS
    detailsCurrentOperation := some currentOperation }

/-- One row of `STDERR_PATTERNS`: pattern (a literal substring, matched
case-insensitively as the `/i` regexes do), code and message. -/
structure StderrPattern where
  pattern : String
  code : ArchiveErrorCode
  message : String

/-- The fixed `STDERR_PATTERNS` table. -/
def STDERR_PATTERNS : List StderrPattern := [
  { pattern := "CRC Failed", code := ArchiveErrorCode.CORRUPT_ARCHIVE,
    message := "CRC check failed - archive is corrupted" },
  { pattern := "Data Error", code := ArchiveErrorCode.CORRUPT_ARCHIVE,
    message := "Data error - archive is corrupted" },
  { pattern := "Headers Error", code := ArchiveErrorCode.CORRUPT_ARCHIVE,
    message := "Invalid archive headers - archive is corrupted" },
  { pattern := "Unexpected end of archive", code := ArchiveErrorCode.CORRUPT_ARCHIVE,
    message := "Unexpected end of archive - file may be truncated" },
  { pattern := "Can not open the file as archive", code := ArchiveErrorCode.CORRUPT_ARCHIVE,
    message := "Cannot open file as archive - invalid or corrupted" },
  { pattern := "Is not archive", code := ArchiveErrorCode.CORRUPT_ARCHIVE,
    message := "File is not a valid archive" },
  { pattern := "Access is denied", code := ArchiveErrorCode.PERMISSION_DENIED,
    message := "Access denied - permission error" },
  { pattern := "cannot access the file because it is being used", code := ArchiveErrorCode.FILE_IN_USE,
    message := "File is in use by another process" },
  { pattern := "Sharing violation", code := ArchiveErrorCode.FILE_IN_USE,
    message := "Sharing violation - file is locked" },
  { pattern := "There is not enough space on the disk", code := ArchiveErrorCode.DISK_FULL,
    message := "Not enough disk space" },
  { pattern := "No space left on device", code := ArchiveErrorCode.DISK_FULL,
    message := "No space left on device" },
  { pattern := "Cannot find the file", code := ArchiveErrorCode.FILE_NOT_FOUND,
    message := "File not found" },
  { pattern := "The system cannot find the file", code := ArchiveErrorCode.FILE_NOT_FOUND,
    message := "System cannot find the file" },
  { pattern := "The system cannot find the path", code := ArchiveErrorCode.DIRECTORY_NOT_FOUND,
    message := "System cannot find the path" },
  { pattern := "Wrong password", code := ArchiveErrorCode.ENCRYPTED_ARCHIVE,
    message := "Wrong password for encrypted archive" },
  { pattern := "Enter password", code := ArchiveErrorCode.ENCRYPTED_ARCHIVE,
    message := "Archive requires a password" }]

/-- Case-insensitive substring test standing for `pattern.test(stderr)` (every
pattern in the table is a literal, `/i`-flagged). -/
def regexTestCI (pattern s : String) : Bool :=
  listContainsSub (toLowerStr pattern).toList (toLowerStr s).toList

/-- Function `parseStderrForError`: first matching row's code and message. -/
def parseStderrForError (stderr : String) : Option (ArchiveErrorCode × String) :=
  (STDERR_PATTERNS.find? fun p => regexTestCI p.pattern stderr).map
    fun p => (p.code, p.message)

/-- Function `exitCodeToErrorCode` (the 7za exit-code switch). -/
def exitCodeToErrorCode (exitCode : Int) : Option ArchiveErrorCode :=
  if exitCode = 0 then none
  else if exitCode = 1 then some ArchiveErrorCode.WARNING
  else if exitCode = 2 then some ArchiveErrorCode.FATAL_ERROR
  else if exitCode = 7 then some ArchiveErrorCode.COMMAND_LINE_ERROR
  else if exitCode = 8 then some ArchiveErrorCode.OUT_OF_MEMORY
  else if exitCode = 255 then some ArchiveErrorCode.USER_ABORTED
  else some ArchiveErrorCode.FATAL_ERROR

/-- Table `DEFAULT_MESSAGES`. -/
def DEFAULT_MESSAGES : ArchiveErrorCode → String
  | ArchiveErrorCode.WARNING => "Operation completed with warnings"
  | ArchiveErrorCode.FATAL_ERROR => "Fatal error occurred during operation"
  | ArchiveErrorCode.COMMAND_LINE_ERROR => "Invalid command line arguments"
  | ArchiveErrorCode.OUT_OF_MEMORY => "Out of memory"
  | ArchiveErrorCode.USER_ABORTED => "Operation was aborted"
  | ArchiveErrorCode.INVALID_PATH => "Invalid path"
  | ArchiveErrorCode.PATH_TRAVERSAL => "Path traversal detected"
  | ArchiveErrorCode.FILE_NOT_FOUND => "File not found"
  | ArchiveErrorCode.DIRECTORY_NOT_FOUND => "Directory not found"
  | ArchiveErrorCode.ENCRYPTED_ARCHIVE => "Archive is encrypted"
  | ArchiveErrorCode.CORRUPT_ARCHIVE => "Archive is corrupted"
  | ArchiveErrorCode.UNSUPPORTED_FORMAT => "Unsupported format"
  | ArchiveErrorCode.EMPTY_ARCHIVE => "Archive is empty"
  | ArchiveErrorCode.EXECUTABLE_NOT_FOUND => "Executable not found"
  | ArchiveErrorCode.SPAWN_FAILED => "Failed to spawn process"
  | ArchiveErrorCode.PROCESS_TIMEOUT => "Process timed out"
  | ArchiveErrorCode.OPERATION_IN_PROGRESS => "Operation in progress"
  | ArchiveErrorCode.OPERATION_CANCELLED => "Operation cancelled"
  | ArchiveErrorCode.PERMISSION_DENIED => "Permission denied"
  | ArchiveErrorCode.DISK_FULL => "Disk is full"
  | ArchiveErrorCode.FILE_IN_USE => "File is in use"

/-- Function `createErrorFromExitCode(exitCode, archivePath, stderr)`: stderr
patterns first, then the exit-code fallback with an optional short stderr
excerpt appended to the default message. -/
def createErrorFromExitCode (exitCode : Int) (archivePath : String)
    (stderr : String := "") : ArchiveErrorL :=
  match parseStderrForError stderr with
  | some (code, msg) =>
    { message := msg, code := code,
      detailsArchivePath := some archivePath, detailsExitCode := some exitCode,
      detailsStderr := some (jsTrim stderr) }
  | none =>
    let errorCode := (exitCodeToErrorCode exitCode).getD ArchiveErrorCode.FATAL_ERROR
    let stderrTrimmed := jsTrim stderr
    let message :=
      if !stderrTrimmed.isEmpty && stderrTrimmed.length < 200 then
        DEFAULT_MESSAGES errorCode ++ ": " ++ stderrTrimmed
      else DEFAULT_MESSAGES errorCode
    { message := message, code := errorCode,
      detailsArchivePath := some archivePath, detailsExitCode := some exitCode,
      detailsStderr := if stderrTrimmed.isEmpty then none else some stderrTrimmed }

/-! ## Listing parser (`src/utils/sltParser.ts`) -/

/-- Interface `SltFileEntry` (raw parsed data for one file). Numeric fields
hold `Option Int` inside the option: the inner `none` models `NaN` from
`parseInt`. -/
structure SltFileEntry where
  path : Option String := none
  size : Option (Option Int) := none
  packedSize : Option (Option Int) := none
  modified : Option String := none
  encrypted : Option String := none
  crc : Option String := none
  attributes : Option String := none
deriving DecidableEq, Repr

/-- Interface `FileInfo`. `size` is a JS number (`none` models `NaN`).
`dateRaw` keeps the `Modified` string the source feeds to `new Date(...)`
(`none` when the field was absent or the source fell back to the current
time); no claim depends on the resulting `Date` value. -/
structure FileInfo where
  filename : String
  size : Option Int
  compressedSize : Option (Option Int) := none
  dateRaw : Option String := none
  encrypted : Bool := false
  crc : Option String := none
deriving DecidableEq, Repr

/-- Function `convertToFileInfo`: `null` for a missing/empty path or a
directory entry; otherwise the record, with `size` defaulting to 0 when the
block carried no `Size` key. -/
def convertToFileInfo (entry : SltFileEntry) : Option FileInfo :=
  match entry.path with
  | none => none
  | some p =>
    if p.isEmpty then none  -- !entry.path also holds for the empty string
    else if (entry.attributes.map fun a => strContainsSub a "D").getD false then none
    else
      some { filename := p
             size := match entry.size with | none => some 0 | some v => v
             compressedSize := entry.packedSize
             dateRaw := entry.modified
             encrypted := entry.encrypted == some "+"
             crc := entry.crc }

/-- One key-value assignment of the block grammar (`switch (key)`). -/
def applySltKey (entry : SltFileEntry) (key value : String) : SltFileEntry :=
  if key = "Path" then { entry with path := some value }
  else if key = "Size" then { entry with size := some (jsParseInt value) }
  else if key = "Packed Size" then { entry with packedSize := some (jsParseInt value) }
  else if key = "Modified" then { entry with modified := some value }
  else if key = "Encrypted" then { entry with encrypted := some value }
  else if key = "CRC" then { entry with crc := some value }
  else if key = "Attributes" then { entry with attributes := some value }
  else entry

/-- The line loop of `parseSltString`: a blank line flushes the current entry;
a `key = value` line updates it; other lines are skipped. -/
def parseSltLoop : List String → List FileInfo → SltFileEntry → List FileInfo
  | [], files, currentEntry =>
    files ++ (convertToFileInfo currentEntry).toList  -- flush the last entry
  | line :: rest, files, currentEntry =>
    let trimmed := jsTrim line
    if trimmed.isEmpty then
      parseSltLoop rest (files ++ (convertToFileInfo currentEntry).toList) {}
    else
      match strIndexOf trimmed " = " with
      | none => parseSltLoop rest files currentEntry
      | some i =>
        let key := String.mk (trimmed.toList.take i)
        let value := String.mk (trimmed.toList.drop (i + 3))
        parseSltLoop rest files (applySltKey currentEntry key value)

/-- Function `parseSltString`. -/
def parseSltString (output : String) : List FileInfo :=
  parseSltLoop (splitLinesJs output) [] {}

/-- Function `hasEncryptedFiles`. -/
def hasEncryptedFiles (files : List FileInfo) : Bool :=
  files.any fun file => file.encrypted

/-- Function `findEncryptedFile`. -/
def findEncryptedFile (files : List FileInfo) : Option FileInfo :=
  files.find? fun file => file.encrypted

/-! ## Path-safety gate (`src/utils/pathValidation.ts`) -/

/-- Function `validateEntryPath`: `.error` models the `throw` of
`PathTraversalError`; checks run in source order (absolute form of the
normalized path, traversal segments left in the normalized path in either
separator style, then embedded null bytes in the raw path). -/
def validateEntryPath (entryPath archivePath : String) : Except ArchiveErrorL Unit :=
  let normalized := NodePath.normalizeChars entryPath.toList
  if NodePath.isAbsoluteL normalized then
    Except.error (PathTraversalError entryPath archivePath)
  else if List.isPrefixOf ['.', '.'] normalized
      || listContainsSub ['.', '.', NodePath.sepChar] normalized
      || listContainsSub ['.', '.', '/'] normalized
      || listContainsSub ['.', '.', '\\'] normalized then
    Except.error (PathTraversalError entryPath archivePath)
  else if listContainsSub ['\x00'] entryPath.toList then
    Except.error (PathTraversalError entryPath archivePath)
  else Except.ok ()

/-- Function `validateAllEntries`: first violation aborts the whole pass. -/
def validateAllEntries (entries : List FileInfo) (archivePath : String) :
    Except ArchiveErrorL Unit :=
  match entries with
  | [] => Except.ok ()
  | entry :: rest =>
    match validateEntryPath entry.filename archivePath with
    | Except.error e => Except.error e
    | Except.ok _ => validateAllEntries rest archivePath

/-- Function `normalizePath` (normalize, then backslashes to slashes). -/
def normalizePath (inputPath : String) : String :=
  String.mk ((NodePath.normalizeChars inputPath.toList).map
    fun c => if c = '\\' then '/' else c)

/-- Function `isSafePath`. -/
def isSafePath (entryPath : String) : Bool :=
  match validateEntryPath entryPath "" with
  | Except.ok _ => true
  | Except.error _ => false

/-! ## Worker (`src/core/archiveOps.ts`) -/

/-- Enum `ArchiveOpType`. -/
inductive ArchiveOpType where
  | UNDEFINED
  | COMPRESS
  | DECOMPRESS
  | LIST
  | EXTRACT_SINGLE
  | UPDATE
deriving DecidableEq, Repr

/-- Reverse enum lookup `ArchiveOpType[op]`. -/
def ArchiveOpType.enumName : ArchiveOpType → String
  | .UNDEFINED => "UNDEFINED"
  | .COMPRESS => "COMPRESS"
  | .DECOMPRESS => "DECOMPRESS"
  | .LIST => "LIST"
  | .EXTRACT_SINGLE => "EXTRACT_SINGLE"
  | .UPDATE => "UPDATE"

/-- Enum `ProcessStatus` (numeric values in the source: UNDEFINED -1, ERROR 0,
SUCCESS 1, PENDING 2, QUEUED 10, RUNNING 11). -/
inductive ProcessStatus where
  | UNDEFINED
  | ERROR
  | SUCCESS
  | PENDING
  | QUEUED
  | RUNNING
deriving DecidableEq, Repr

/-- Record `ArchiveOpResult`. `runtime` keeps the elapsed milliseconds the
source divides by 1000 before storing. -/
structure ArchiveOpResult where
  success : Bool
  runtimeMs : Int
  type : ArchiveOpType
  message : String
  files : List FileInfo
  basePath : Option String := none
  exitCode : Option Int := none
deriving DecidableEq, Repr

/-- The mutable fields of one `ArchiveOps` worker. `processAttached` models
"`this.process` is non-null and not killed". -/
structure WorkerState where
  status : ProcessStatus := ProcessStatus.UNDEFINED
  lastMessage : String := ""
  processAttached : Bool := false
  activeOp : ArchiveOpType := ArchiveOpType.UNDEFINED
  startTime : Int := 0
  currentArchivePath : String := ""
deriving DecidableEq, Repr

/-- Method `cleanup`: reset the active operation and kill/release the process. -/
def ArchiveOps.cleanup (w : WorkerState) : WorkerState :=
  { w with activeOp := ArchiveOpType.UNDEFINED, processAttached := false }

/-- Method `createSuccessResult`: the source computes the runtime, marks
success, runs `cleanup()` — which resets `activeOp` — and only then builds the
result object reading `this.activeOp`. `now` stands for `Date.now()`. -/
def ArchiveOps.createSuccessResult (now : Int) (w : WorkerState) (message : String)
    (files : List FileInfo) (basePath : String) (exitCode : Int) :
    ArchiveOpResult × WorkerState :=
  let runtimeMs := now - w.startTime
  let w := { w with status := ProcessStatus.SUCCESS, lastMessage := message }
  let w := ArchiveOps.cleanup w
  ({ success := true
     runtimeMs := runtimeMs
     type := w.activeOp
     message := message
     files := files
     basePath := some (normalizePath basePath)
     exitCode := some exitCode }, w)

/-- Method `verifyArchive`: existence (`fs.access`, abstracted to the boolean
`exists`) then the `.zip` extension check. `none` means no throw. -/
def ArchiveOps.verifyArchive (exists_ : Bool) (archivePath : String) :
    Option ArchiveErrorL :=
  if !exists_ then
    some { message := "Archive not found: " ++ archivePath
           code := ArchiveErrorCode.FILE_NOT_FOUND
           detailsArchivePath := some archivePath }
  else
    let ext := toLowerStr (NodePath.extname archivePath)
    if ext ≠ ".zip" then
      some (UnsupportedFormatError archivePath (if ext.isEmpty then "(none)" else ext))
    else none

/-- Method `listEntriesInternal`, given the finished list process's streams
and exit code: parse, reject encrypted archives, or fail via the classifier. -/
def ArchiveOps.listEntriesInternal (stdout stderr : String) (exitCode : Int)
    (fullArchivePath : String) : Except ArchiveErrorL ArchiveOpResult :=
  if exitCode = 0 then
    let files := parseSltString stdout
    if hasEncryptedFiles files then
      Except.error (EncryptedArchiveError fullArchivePath)
    else
      Except.ok { success := true
                  runtimeMs := 0
                  type := ArchiveOpType.LIST
                  message := "Listed " ++ toString files.length ++ " entries."
                  files := files
                  basePath := some (NodePath.dirname fullArchivePath)
                  exitCode := some exitCode }
  else Except.error (createErrorFromExitCode exitCode fullArchivePath stderr)

/-- The environment one worker operation observes: `resolve` is `path.resolve`
against the process working directory, the booleans are the `fs` probes, the
strings/exit codes are what the spawned tool produced, and the timestamps are
`Date.now()` at operation start and at process close. -/
structure ProcEnv where
  resolve : String → String
  archiveExists : Bool := true
  targetDirOk : Bool := true
  listStdout : String := ""
  listStderr : String := ""
  listExit : Int := 0
  opStderr : String := ""
  opExit : Int := 0
  startNow : Int := 0
  endNow : Int := 0

/-- Method `listEntries` (public): the in-progress guard, `verifyArchive`,
state updates, then the `close` handler of the `l -slt` process (exit 0:
parse + encrypted check + `createSuccessResult`; otherwise cleanup and the
classified error). The worker's state after the call is returned alongside. -/
def ArchiveOps.listEntries (env : ProcEnv) (w : WorkerState) (archivePath : String) :
    Except ArchiveErrorL ArchiveOpResult × WorkerState :=
  let w := { w with lastMessage := "", currentArchivePath := archivePath }
  if w.activeOp ≠ ArchiveOpType.UNDEFINED then
    (Except.error (OperationInProgressError w.activeOp.enumName), w)
  else
    let fullArchivePath := env.resolve archivePath
    match ArchiveOps.verifyArchive env.archiveExists fullArchivePath with
    | some e => (Except.error e, w)
    | none =>
      let w := { w with activeOp := ArchiveOpType.LIST
                        status := ProcessStatus.RUNNING
                        lastMessage := "Listing archive contents..."
                        startTime := env.startNow
                        processAttached := true }
      if env.listExit = 0 then
        let files := parseSltString env.listStdout
        if hasEncryptedFiles files then
          (Except.error (EncryptedArchiveError fullArchivePath), ArchiveOps.cleanup w)
        else
          let rw := ArchiveOps.createSuccessResult env.endNow w
            ("Listed " ++ toString files.length ++ " entries in '" ++
              NodePath.basename archivePath ++ "'.")
            files fullArchivePath env.listExit
          (Except.ok rw.1, rw.2)
      else
        (Except.error (createErrorFromExitCode env.listExit fullArchivePath env.listStderr),
         ArchiveOps.cleanup w)

/-- What one `decompress` call produced: the asynchronous outcome, the
worker's final state, and the argument vector of the extraction process if one
was spawned (`none` = extraction never started). -/
structure DecompressOutcome where
  result : Except ArchiveErrorL ArchiveOpResult
  worker : WorkerState
  extractSpawn : Option (List String)
deriving Repr

/-- Method `decompress`: guard, path resolution, `verifyArchive`,
target-directory creation, the internal listing pass, the empty-archive check,
`validateAllEntries` over every entry — all before the extraction process is
spawned — then the extraction `close` handler. -/
def ArchiveOps.decompress (env : ProcEnv) (w : WorkerState)
    (archivePath targetPath : String) (fileList : Option (List String)) :
    DecompressOutcome :=
  let w := { w with lastMessage := "", currentArchivePath := archivePath }
  if w.activeOp ≠ ArchiveOpType.UNDEFINED then
    { result := Except.error (OperationInProgressError w.activeOp.enumName)
      worker := w, extractSpawn := none }
  else
    let fullArchivePath := env.resolve archivePath
    let fullTargetPath := env.resolve targetPath
    let srcFilename := NodePath.basename fullArchivePath
    match ArchiveOps.verifyArchive env.archiveExists fullArchivePath with
    | some e => { result := Except.error e, worker := w, extractSpawn := none }
    | none =>
      if !env.targetDirOk then
        { result := Except.error
            { message := "Failed to create directory: " ++ fullTargetPath
              code := ArchiveErrorCode.DIRECTORY_NOT_FOUND
              detailsDirectoryPath := some fullTargetPath }
          worker := w, extractSpawn := none }
      else
        match ArchiveOps.listEntriesInternal env.listStdout env.listStderr
            env.listExit fullArchivePath with
        | Except.error e => { result := Except.error e, worker := w, extractSpawn := none }
        | Except.ok listResult =>
          if listResult.files.isEmpty then
            { result := Except.error
                { message := "Cannot decompress empty archive: " ++ srcFilename
                  code := ArchiveErrorCode.EMPTY_ARCHIVE
                  detailsArchivePath := some fullArchivePath }
              worker := w, extractSpawn := none }
          else
            match validateAllEntries listResult.files fullArchivePath with
            | Except.error e =>
              { result := Except.error e, worker := w, extractSpawn := none }
            | Except.ok _ =>
              let w := { w with activeOp := ArchiveOpType.DECOMPRESS
                                status := ProcessStatus.RUNNING
                                lastMessage := "Extracting '" ++ srcFilename ++
                                  "' to '" ++ targetPath ++ "'"
                                startTime := env.startNow
                                processAttached := true }
              let args := ["x", "-aoa", "-bsp1", "-bso0", fullArchivePath,
                           "-o" ++ fullTargetPath] ++ (fileList.getD [])
              if env.opExit = 0 then
                let rw := ArchiveOps.createSuccessResult env.endNow w
                  ("Extracted '" ++ srcFilename ++ "' to '" ++ targetPath ++ "'.")
                  listResult.files fullTargetPath env.opExit
                { result := Except.ok rw.1, worker := rw.2, extractSpawn := some args }
              else
                { result := Except.error
                    (createErrorFromExitCode env.opExit fullArchivePath env.opStderr)
                  worker := ArchiveOps.cleanup w, extractSpawn := some args }

/-! ## Scheduler (`src/core/archiveService.ts`)

The service is single-threaded: submission, dispatch, cancellation and each
operation promise's settlement handler run to completion without interleaving,
so the reachable states are exactly the fold of those atomic events. A job's
`operation()` promise settles at some later event even if the job was removed
from tracking first (the `.then`/`.catch` handlers stay attached), which the
`pending` list records. -/

/-- Record `QueuedJob` (the scheduler's bookkeeping fields: the operation
thunk and the promise pair are modelled by events and by the settlement
lists of `SchedulerState`). `worker` models `worker: ArchiveOps | null`; no
statement in the source ever assigns it after the `null` at submission. -/
structure QueuedJob where
  id : Nat
  status : ProcessStatus
  worker : Option Unit
deriving DecidableEq, Repr

/-- State of the `ArchiveService` singleton, plus the observations the claims
need: `pending` holds started operations whose promise has not settled yet,
`resolvedIds`/`rejectedIds` record each job promise's first settlement, and
`workerCancels` records every `job.worker.cancel()` call. -/
structure SchedulerState where
  jobs : List QueuedJob := []
  activeJobs : Int := 0
  pending : List Nat := []
  nextId : Nat := 0
  resolvedIds : List Nat := []
  rejectedIds : List Nat := []
  workerCancels : List Nat := []
deriving DecidableEq, Repr

/-- Promise settlement is latched: only the first resolve wins. -/
def recordResolve (s : SchedulerState) (id : Nat) : SchedulerState :=
  if id ∈ s.resolvedIds || id ∈ s.rejectedIds then s
  else { s with resolvedIds := s.resolvedIds ++ [id] }

/-- Promise settlement is latched: only the first reject wins. -/
def recordReject (s : SchedulerState) (id : Nat) : SchedulerState :=
  if id ∈ s.resolvedIds || id ∈ s.rejectedIds then s
  else { s with rejectedIds := s.rejectedIds ++ [id] }

/-- The dispatch loop of `processQueue`: walk the queue in insertion order;
start (QUEUED becomes RUNNING, count increments) each queued job, stopping as
soon as the count reaches the ceiling. Returns the updated queue, the updated
count and the ids started (their operations are now pending). -/
def pqGo (maxConcurrent : Int) : List QueuedJob → Int → List QueuedJob × Int × List Nat
  | [], a => ([], a, [])
  | j :: rest, a =>
    if j.status ≠ ProcessStatus.QUEUED then
      let r := pqGo maxConcurrent rest a
      (j :: r.1, r.2.1, r.2.2)
    else
      let j' := { j with status := ProcessStatus.RUNNING }
      if maxConcurrent ≤ a + 1 then (j' :: rest, a + 1, [j.id])
      else
        let r := pqGo maxConcurrent rest (a + 1)
        (j' :: r.1, r.2.1, j.id :: r.2.2)

/-- Method `processQueue`. -/
def processQueue (maxConcurrent : Int) (s : SchedulerState) : SchedulerState :=
  if maxConcurrent ≤ s.activeJobs then s
  else
    { s with jobs := (pqGo maxConcurrent s.jobs s.activeJobs).1
             activeJobs := (pqGo maxConcurrent s.jobs s.activeJobs).2.1
             pending := s.pending ++ (pqGo maxConcurrent s.jobs s.activeJobs).2.2 }

/-- Method `submitJob`: append a QUEUED job with a null worker, then dispatch. -/
def submitJob (maxConcurrent : Int) (s : SchedulerState) : SchedulerState :=
  processQueue maxConcurrent
    { s with jobs := s.jobs ++ [{ id := s.nextId, status := ProcessStatus.QUEUED,
                                  worker := none }]
             nextId := s.nextId + 1 }

/-- Method `cleanupJob`: delete the id (a no-op when it is already gone),
decrement the running count unconditionally, dispatch again. -/
def cleanupJob (maxConcurrent : Int) (s : SchedulerState) (id : Nat) : SchedulerState :=
  processQueue maxConcurrent
    { s with jobs := s.jobs.filter fun j => j.id ≠ id
             activeJobs := s.activeJobs - 1 }

/-- Settlement of a started operation's promise (the `.then`/`.catch` handler
attached in `processQueue`): write the terminal status on the captured job
object if it is still tracked, settle the caller's promise, then `cleanupJob`.
Fires once per started operation, whether or not the job is still tracked. -/
def settleJob (maxConcurrent : Int) (s : SchedulerState) (id : Nat) (ok : Bool) :
    SchedulerState :=
  if id ∈ s.pending then
    let s := { s with pending := s.pending.filter fun i => i ≠ id }
    let s := { s with jobs := s.jobs.map fun j =>
                 if j.id = id then
                   { j with status := if ok then ProcessStatus.SUCCESS
                                      else ProcessStatus.ERROR }
                 else j }
    let s := if ok then recordResolve s id else recordReject s id
    cleanupJob maxConcurrent s id
  else s

/-- Method `cancelJob`: not found returns false; otherwise forward to the
worker and decrement only when the worker reference is non-null and the job is
RUNNING, reject the promise, remove the job, dispatch, return true. -/
def cancelJob (maxConcurrent : Int) (s : SchedulerState) (id : Nat) :
    Bool × SchedulerState :=
  match s.jobs.find? fun j => j.id = id with
  | none => (false, s)
  | some job =>
    let s := if job.worker.isSome && job.status = ProcessStatus.RUNNING then
               { s with workerCancels := s.workerCancels ++ [id]
                        activeJobs := s.activeJobs - 1 }
             else s
    let s := recordReject s id
    let s := { s with jobs := s.jobs.filter fun j => j.id ≠ id }
    (true, processQueue maxConcurrent s)

/-- Method `cancelAll`: reject every tracked job (forwarding to the worker
under the same null-guard), clear the queue, zero the running count. Pending
operation settlements are unaffected: the spawned processes keep running. -/
def cancelAll (s : SchedulerState) : SchedulerState :=
  let s := s.jobs.foldl
    (fun acc j =>
      let acc := if j.worker.isSome && j.status = ProcessStatus.RUNNING then
                   { acc with workerCancels := acc.workerCancels ++ [j.id] }
                 else acc
      recordReject acc j.id)
    s
  { s with jobs := [], activeJobs := 0 }

/-- The atomic events of the single-threaded service. -/
inductive SchedEvent where
  | submit
  | settle (id : Nat) (ok : Bool)
  | cancel (id : Nat)
  | cancelAll
deriving DecidableEq, Repr

/-- One event's effect (`cancel` discards the boolean return). -/
def schedStep (maxConcurrent : Int) (s : SchedulerState) : SchedEvent → SchedulerState
  | SchedEvent.submit => submitJob maxConcurrent s
  | SchedEvent.settle id ok => settleJob maxConcurrent s id ok
  | SchedEvent.cancel id => (cancelJob maxConcurrent s id).2
  | SchedEvent.cancelAll => cancelAll s

/-- Run a trace of events from the freshly created service. -/
def runTrace (maxConcurrent : Int) (events : List SchedEvent) : SchedulerState :=
  events.foldl (schedStep maxConcurrent) {}

/-- How many tracked jobs are in RUNNING status. -/
def runningCount (s : SchedulerState) : Nat :=
  (s.jobs.filter fun j => j.status = ProcessStatus.RUNNING).length

/-- How many tracked jobs are in QUEUED status (method `getStatus`'s
`queued`). -/
def queuedCount (s : SchedulerState) : Nat :=
  (s.jobs.filter fun j => j.status = ProcessStatus.QUEUED).length

/-! ## Claim-side predicates (phrasing the specification's words) -/

/-- Split on both separator styles, for the specification's "parent-directory
traversal segment in either separator style". -/
def splitEitherSep : List Char → List Char → List (List Char)
  | [], cur => [cur.reverse]
  | c :: rest, cur =>
    if c = '/' || c = '\\' then cur.reverse :: splitEitherSep rest []
    else splitEitherSep rest (c :: cur)

/-- The raw path contains a `..` segment in either separator style. -/
def containsDotDotSegment (p : String) : Bool :=
  (splitEitherSep p.toList []).any fun s => s == ['.', '.']

/-- The raw path contains an embedded null byte. -/
def hasNullByte (p : String) : Bool :=
  listContainsSub ['\x00'] p.toList

/-- The path's normalized form still carries a traversal segment (leads with
`..`, or contains `../` or a backslash-style `..`). -/
def normalizedRetainsDotDot (p : String) : Bool :=
  let n := NodePath.normalizeChars p.toList
  List.isPrefixOf ['.', '.'] n || listContainsSub ['.', '.', '/'] n ||
    listContainsSub ['.', '.', '\\'] n

/-- Amended rejection predicate for entry paths: absolute, null-carrying, or
normalization leaves a traversal segment. -/
def specRejectedPath (p : String) : Bool :=
  NodePath.isAbsolute p || hasNullByte p || normalizedRetainsDotDot p

/-- The specification's exit-code table: 1 warning, 2 fatal, 7 command-line
error, 8 out of memory, 255 user abort, anything else a generic fatal. -/
def specFallbackCode (e : Int) : ArchiveErrorCode :=
  if e = 1 then ArchiveErrorCode.WARNING
  else if e = 2 then ArchiveErrorCode.FATAL_ERROR
  else if e = 7 then ArchiveErrorCode.COMMAND_LINE_ERROR
  else if e = 8 then ArchiveErrorCode.OUT_OF_MEMORY
  else if e = 255 then ArchiveErrorCode.USER_ABORTED
  else ArchiveErrorCode.FATAL_ERROR

/-- The `Size` value of a listing line, when the trimmed line is a `Size`
assignment in the block grammar. -/
def sizeLineValue (line : String) : Option String :=
  match strIndexOf (jsTrim line) " = " with
  | none => none
  | some i =>
    if String.mk ((jsTrim line).toList.take i) = "Size" then
      some (String.mk ((jsTrim line).toList.drop (i + 3)))
    else none

/-- A listing line's `Size` value (if any) parses to a non-negative integer. -/
def sizeLineOK (line : String) : Bool :=
  match sizeLineValue line with
  | none => true
  | some v =>
    match jsParseInt v with
    | some n => decide (0 ≤ n)
    | none => false

/-! ## Helper lemmas -/

/-- The gate either accepts or throws the one `PathTraversalError` for its
arguments. -/
lemma validateEntryPath_cases (p a : String) :
    validateEntryPath p a = Except.ok () ∨
    validateEntryPath p a = Except.error (PathTraversalError p a) := by
  unfold validateEntryPath
  dsimp only
  repeat' split
  all_goals first
    | exact Or.inl rfl
    | exact Or.inr rfl

/-- Every error `validateEntryPath` produces is the `PathTraversalError` for
its arguments. -/
lemma validateEntryPath_error_eq {p a : String} {e : ArchiveErrorL}
    (h : validateEntryPath p a = Except.error e) : e = PathTraversalError p a := by
  rcases validateEntryPath_cases p a with h2 | h2 <;> rw [h2] at h
  · cases h
  · simp only [Except.error.injEq] at h
    exact h.symm

/-- `validateAllEntries` fails with a path-traversal error whenever some entry
fails `validateEntryPath`. -/
lemma validateAllEntries_error_of_mem {files : List FileInfo} {a : String}
    {f : FileInfo} (hf : f ∈ files) {e : ArchiveErrorL}
    (hbad : validateEntryPath f.filename a = Except.error e) :
    ∃ e2, validateAllEntries files a = Except.error e2 ∧
      e2.code = ArchiveErrorCode.PATH_TRAVERSAL := by
  induction files with
  | nil => cases hf
  | cons g rest ih =>
    cases hres : validateEntryPath g.filename a with
    | error e2 =>
      refine ⟨e2, ?_, ?_⟩
      · simp [validateAllEntries, hres]
      · rw [validateEntryPath_error_eq hres]; rfl
    | ok u =>
      rcases List.mem_cons.mp hf with hfg | hft
      · subst hfg; rw [hres] at hbad; cases hbad
      · obtain ⟨e2, h1, h2⟩ := ih hft
        exact ⟨e2, by simpa [validateAllEntries, hres] using h1, h2⟩

/-- Normalization keeps an absolute path absolute. -/
lemma normalizeChars_abs_of_abs {cs : List Char}
    (h : NodePath.isAbsoluteL cs = true) :
    NodePath.isAbsoluteL (NodePath.normalizeChars cs) = true := by
  have hne : cs.isEmpty = false := by
    cases cs with
    | nil => simp [NodePath.isAbsoluteL] at h
    | cons c rest => rfl
  unfold NodePath.normalizeChars
  simp only [hne, Bool.false_eq_true, if_false, h, if_true]
  split
  · simp [NodePath.isAbsoluteL]
  · simp [NodePath.isAbsoluteL]

/-- The dispatch loop never changes the queue at or after a position it leaves
QUEUED: scanning is in insertion order and stops at the ceiling, so everything
from the first still-queued job on is untouched. -/
lemma pqGo_frozen (m : Int) (jobs : List QueuedJob) :
    ∀ (a : Int) (i k : Nat), i ≤ k →
      (pqGo m jobs a).1[i]?.map QueuedJob.status = some ProcessStatus.QUEUED →
      (pqGo m jobs a).1[k]? = jobs[k]? := by
  induction jobs with
  | nil =>
    intro a i k hik hq
    simp [pqGo] at hq
  | cons j rest ih =>
    intro a i k hik hq
    simp only [pqGo] at hq ⊢
    by_cases hs : j.status ≠ ProcessStatus.QUEUED
    · rw [if_pos hs] at hq ⊢
      cases i with
      | zero =>
        simp only [List.getElem?_cons_zero, Option.map_some'] at hq
        exact absurd (Option.some.inj hq) hs
      | succ i' =>
        cases k with
        | zero => omega
        | succ k' =>
          simp only [List.getElem?_cons_succ] at hq ⊢
          exact ih a i' k' (by omega) hq
    · rw [if_neg hs] at hq ⊢
      by_cases hm : m ≤ a + 1
      · rw [if_pos hm] at hq ⊢
        cases i with
        | zero => simp at hq
        | succ i' =>
          cases k with
          | zero => omega
          | succ k' => simp only [List.getElem?_cons_succ]
      · rw [if_neg hm] at hq ⊢
        cases i with
        | zero => simp at hq
        | succ i' =>
          cases k with
          | zero => omega
          | succ k' =>
            simp only [List.getElem?_cons_succ] at hq ⊢
            exact ih (a + 1) i' k' (by omega) hq

/-! ## Claim theorems -/

/-- C5: the dispatch routine scans tracked jobs in insertion order and starts
the first Queued job while the running count is below the ceiling; hence if a
position of the queue is still QUEUED after `processQueue`, every tracked job
at or after it is exactly as it was — no later-submitted job is ever started
(or otherwise touched) while an earlier-submitted job is still Queued. Since
submission appends to the queue and every start happens inside `processQueue`,
this is strict FIFO admission. -/
theorem processQueue_fifo (m : Int) (s : SchedulerState) (i k : Nat) (hik : i ≤ k)
    (hq : (processQueue m s).jobs[i]?.map QueuedJob.status = some ProcessStatus.QUEUED) :
    (processQueue m s).jobs[k]? = s.jobs[k]? := by
  unfold processQueue at hq ⊢
  by_cases hm : m ≤ s.activeJobs
  · rw [if_pos hm]
  · rw [if_neg hm] at hq ⊢
    exact pqGo_frozen m s.jobs s.activeJobs i k hik hq

/-- A two-job queue at the ceiling, for the C5 witness. -/
def fifoWitnessState : SchedulerState :=
  { jobs := [{ id := 0, status := ProcessStatus.QUEUED, worker := none },
             { id := 1, status := ProcessStatus.QUEUED, worker := none }]
    activeJobs := 1 }

theorem processQueue_fifo_witness :
    (processQueue 1 fifoWitnessState).jobs[1]? = fifoWitnessState.jobs[1]? :=
  processQueue_fifo 1 fifoWitnessState 0 1 (by omega) (by rfl)

/-- The C2 failing trace, ceiling 1: submit job 0 (it starts), `cancelAll`
(which neither kills job 0's process nor cancels its worker, the reference
being null, but zeroes the running count), submit job 1 (it starts), job 0's
orphaned operation settles (decrementing the count again), submit job 2 (it
starts too). -/
def c2Trace : List SchedEvent :=
  [SchedEvent.submit, SchedEvent.cancelAll, SchedEvent.submit,
   SchedEvent.settle 0 true, SchedEvent.submit]

/-- C2 (code bug): after `c2Trace` with concurrency ceiling 1, two tracked
jobs are in RUNNING status at once while the service believes one is active:
`cancelAll` resets `activeJobs` to 0 with a settlement still pending, and the
orphaned settlement's `cleanupJob` decrements the count a second time. -/
theorem ceiling_breached_after_cancelAll :
    runningCount (runTrace 1 c2Trace) = 2 ∧ (runTrace 1 c2Trace).activeJobs = 1 := by
  decide

/-- The C3 failing state, ceiling 1: job 0 RUNNING, job 1 QUEUED. -/
def c3State : SchedulerState :=
  runTrace 1 [SchedEvent.submit, SchedEvent.submit]

/-- C3 (code bug): cancelling the RUNNING job 0 returns true and rejects its
future, but — its `worker` reference being null — forwards nothing to the
worker, leaves the running count at 1, and therefore does not let the queued
job 1 start. -/
theorem cancel_running_no_forward :
    (cancelJob 1 c3State 0).1 = true ∧
    (cancelJob 1 c3State 0).2.rejectedIds = [0] ∧
    (cancelJob 1 c3State 0).2.workerCancels = [] ∧
    (cancelJob 1 c3State 0).2.activeJobs = 1 ∧
    (cancelJob 1 c3State 0).2.jobs.map (fun j => (j.id, j.status)) =
      [(1, ProcessStatus.QUEUED)] := by
  decide

/-- C7 (code bug): one submission with ceiling 1 yields a tracked job in
RUNNING status whose `worker` reference is still null — `processQueue` never
assigns it. -/
theorem running_job_worker_null :
    (runTrace 1 [SchedEvent.submit]).jobs.map (fun j => (j.status, j.worker)) =
      [(ProcessStatus.RUNNING, (none : Option Unit))] := by
  decide

/-- C6 (code bug): every result built by `createSuccessResult` carries
operation kind UNDEFINED, whatever operation ran — the method calls
`cleanup()`, which resets `activeOp`, before the result object reads it. -/
theorem createSuccessResult_type_undefined (now : Int) (w : WorkerState)
    (message : String) (files : List FileInfo) (basePath : String) (exitCode : Int) :
    (ArchiveOps.createSuccessResult now w message files basePath exitCode).1.type =
      ArchiveOpType.UNDEFINED := rfl

/-- C1 counterexample: `a/../b` contains a parent-directory traversal segment,
yet `validateEntryPath` accepts it — normalization cancels the segment before
the checks run. -/
theorem interior_dotdot_segment_accepted :
    containsDotDotSegment "a/../b" = true ∧
    validateEntryPath "a/../b" "evil.zip" = Except.ok () := ⟨rfl, rfl⟩

/-- C9 counterexample: a listing whose `Size` value is `-5` yields a FileInfo
with a negative size — `parseInt` output is stored unchecked. -/
theorem parse_negative_size :
    (parseSltString "Path = a\nSize = -5\n\n").map FileInfo.size =
      [some (-5 : Int)] := by decide

/-- C10: with exit code 0 and stderr matching no pattern, the classifier still
returns a FATAL_ERROR error — `exitCodeToErrorCode 0` is `null`, and the `??`
fallback turns that into the generic fatal code, so the exported entry point
never yields a success outcome. -/
theorem createError_exit_zero_fatal (p s : String)
    (h : parseStderrForError s = none) :
    (createErrorFromExitCode 0 p s).code = ArchiveErrorCode.FATAL_ERROR ∧
    exitCodeToErrorCode 0 = none := by
  constructor
  · unfold createErrorFromExitCode
    rw [h]
    rfl
  · rfl

theorem createError_exit_zero_fatal_witness :
    (createErrorFromExitCode 0 "archive.zip" "").code = ArchiveErrorCode.FATAL_ERROR ∧
    exitCodeToErrorCode 0 = none :=
  createError_exit_zero_fatal "archive.zip" "" (by rfl)

/-- C8: the classifier tests stderr against the pattern table first — a match
fixes code and message whatever the exit code; otherwise the code comes from
the fixed exit-code table (1 warning, 2 fatal, 7 command-line, 8 out of
memory, 255 user abort, anything else generic fatal) and the default message
is extended with the trimmed stderr exactly when it is non-empty and shorter
than 200 characters. -/
theorem createError_classification (e : Int) (p s : String) :
    (∀ c msg, parseStderrForError s = some (c, msg) →
      (createErrorFromExitCode e p s).code = c ∧
      (createErrorFromExitCode e p s).message = msg)
    ∧ (parseStderrForError s = none →
      (createErrorFromExitCode e p s).code = specFallbackCode e ∧
      (createErrorFromExitCode e p s).message =
        (if !(jsTrim s).isEmpty && (jsTrim s).length < 200 then
          DEFAULT_MESSAGES (specFallbackCode e) ++ ": " ++ jsTrim s
         else DEFAULT_MESSAGES (specFallbackCode e))) := by
  have hcode : (exitCodeToErrorCode e).getD ArchiveErrorCode.FATAL_ERROR =
      specFallbackCode e := by
    unfold exitCodeToErrorCode specFallbackCode
    split_ifs <;> first | rfl | omega
  refine ⟨fun c msg h => ?_, fun h => ?_⟩
  · unfold createErrorFromExitCode
    rw [h]
    exact ⟨rfl, rfl⟩
  · unfold createErrorFromExitCode
    rw [h]
    dsimp only
    rw [hcode]
    exact ⟨rfl, rfl⟩

/-- A spec-rejected path always fails the gate, with the one traversal error. -/
lemma validateEntryPath_error_of_spec {p a : String}
    (hbad : specRejectedPath p = true) :
    validateEntryPath p a = Except.error (PathTraversalError p a) := by
  unfold validateEntryPath
  dsimp only
  split
  · rfl
  · split
    · rfl
    · split
      · rfl
      · rename_i h1 h2 h3
        exfalso
        simp only [specRejectedPath, NodePath.isAbsolute, hasNullByte,
          normalizedRetainsDotDot, Bool.or_eq_true, not_or] at hbad h2
        have habs := @normalizeChars_abs_of_abs p.toList
        tauto

/-- C1 (amended): every entry path that is absolute, or carries an embedded
null byte, or whose normalized form retains a parent-directory traversal
segment in either separator style, is rejected by `validateEntryPath` with
`PathTraversalError`; and `decompress` over an archive whose (non-empty,
non-encrypted) listing contains such an entry fails with a PATH_TRAVERSAL
error before any extraction process is spawned. A `..` segment that
normalization cancels (such as in `a/../b`) is accepted. -/
theorem entry_path_rejection_aborts_decompress (p a : String) (env : ProcEnv)
    (w : WorkerState) (ap tp : String) (fl : Option (List String)) (f : FileInfo)
    (hbad : specRejectedPath p = true)
    (hw : w.activeOp = ArchiveOpType.UNDEFINED)
    (hex : env.archiveExists = true)
    (hext : toLowerStr (NodePath.extname (env.resolve ap)) = ".zip")
    (ht : env.targetDirOk = true)
    (hcode0 : env.listExit = 0)
    (hnoenc : hasEncryptedFiles (parseSltString env.listStdout) = false)
    (hf : f ∈ parseSltString env.listStdout)
    (hfp : f.filename = p) :
    validateEntryPath p a = Except.error (PathTraversalError p a) ∧
    (∃ err, (ArchiveOps.decompress env w ap tp fl).result = Except.error err ∧
       err.code = ArchiveErrorCode.PATH_TRAVERSAL) ∧
    (ArchiveOps.decompress env w ap tp fl).extractSpawn = none := by
  have hgate := validateEntryPath_error_of_spec (a := env.resolve ap) hbad
  have hbadf : validateEntryPath f.filename (env.resolve ap) =
      Except.error (PathTraversalError f.filename (env.resolve ap)) := by
    rw [hfp]; exact hgate
  obtain ⟨e2, he2, hc2⟩ := validateAllEntries_error_of_mem hf hbadf
  have hemp : (parseSltString env.listStdout).isEmpty = false := by
    cases hpl : parseSltString env.listStdout with
    | nil => rw [hpl] at hf; cases hf
    | cons x xs => rfl
  have hver : ArchiveOps.verifyArchive env.archiveExists (env.resolve ap) = none := by
    unfold ArchiveOps.verifyArchive
    rw [hex]
    simp [hext]
  have hdec : ArchiveOps.decompress env w ap tp fl =
      { result := Except.error e2
        worker := { w with lastMessage := "", currentArchivePath := ap }
        extractSpawn := none } := by
    unfold ArchiveOps.decompress
    dsimp only
    rw [hw]
    simp only [ne_eq, not_true_eq_false, if_false, reduceIte, hver]
    rw [ht]
    simp only [Bool.not_true, Bool.false_eq_true, if_false, reduceIte]
    unfold ArchiveOps.listEntriesInternal
    rw [hcode0]
    simp only [if_pos rfl, hnoenc, Bool.false_eq_true, if_false, reduceIte, hemp, he2]
  refine ⟨validateEntryPath_error_of_spec hbad, ⟨e2, ?_, hc2⟩, ?_⟩
  · rw [hdec]
  · rw [hdec]

/-- Environment for the C1 witness: a listing whose single entry escapes via
`../../etc/passwd`. -/
def c1Env : ProcEnv :=
  { resolve := (fun s => "/w/" ++ s)
    listStdout := "Path = ../../etc/passwd\nSize = 1\n\n" }

/-- The entry that listing parses to. -/
def c1File : FileInfo := { filename := "../../etc/passwd", size := some 1 }

theorem entry_path_rejection_aborts_decompress_witness :
    validateEntryPath "../../etc/passwd" "/w/a.zip" =
      Except.error (PathTraversalError "../../etc/passwd" "/w/a.zip") ∧
    (∃ err, (ArchiveOps.decompress c1Env {} "a.zip" "out" none).result =
        Except.error err ∧ err.code = ArchiveErrorCode.PATH_TRAVERSAL) ∧
    (ArchiveOps.decompress c1Env {} "a.zip" "out" none).extractSpawn = none :=
  entry_path_rejection_aborts_decompress "../../etc/passwd" "/w/a.zip" c1Env {}
    "a.zip" "out" none c1File (by decide) rfl rfl (by decide) rfl rfl
    (by decide) (by decide) rfl

/-- C4: whenever the parsed listing reports at least one encrypted entry,
`listEntries` rejects with the EncryptedArchiveError, and `decompress`
rejects with the same error during its internal listing pass — before any
extraction process is spawned. -/
theorem encrypted_archive_rejected (lenv denv : ProcEnv) (w w2 : WorkerState)
    (ap ap2 tp : String) (fl : Option (List String))
    (hw : w.activeOp = ArchiveOpType.UNDEFINED)
    (hex : lenv.archiveExists = true)
    (hext : toLowerStr (NodePath.extname (lenv.resolve ap)) = ".zip")
    (hcode0 : lenv.listExit = 0)
    (henc : hasEncryptedFiles (parseSltString lenv.listStdout) = true)
    (hw2 : w2.activeOp = ArchiveOpType.UNDEFINED)
    (hex2 : denv.archiveExists = true)
    (hext2 : toLowerStr (NodePath.extname (denv.resolve ap2)) = ".zip")
    (ht2 : denv.targetDirOk = true)
    (hcode2 : denv.listExit = 0)
    (henc2 : hasEncryptedFiles (parseSltString denv.listStdout) = true) :
    (ArchiveOps.listEntries lenv w ap).1 =
      Except.error (EncryptedArchiveError (lenv.resolve ap)) ∧
    (ArchiveOps.decompress denv w2 ap2 tp fl).result =
      Except.error (EncryptedArchiveError (denv.resolve ap2)) ∧
    (ArchiveOps.decompress denv w2 ap2 tp fl).extractSpawn = none := by
  have hver : ArchiveOps.verifyArchive lenv.archiveExists (lenv.resolve ap) = none := by
    unfold ArchiveOps.verifyArchive
    rw [hex]
    simp [hext]
  have hver2 : ArchiveOps.verifyArchive denv.archiveExists (denv.resolve ap2) = none := by
    unfold ArchiveOps.verifyArchive
    rw [hex2]
    simp [hext2]
  refine ⟨?_, ?_, ?_⟩
  · unfold ArchiveOps.listEntries
    dsimp only
    rw [hw]
    simp only [ne_eq, not_true_eq_false, if_false, reduceIte, hver]
    rw [hcode0]
    simp only [if_pos rfl, henc, if_true, reduceIte]
  all_goals
    unfold ArchiveOps.decompress
    dsimp only
    rw [hw2]
    simp only [ne_eq, not_true_eq_false, if_false, reduceIte, hver2]
    rw [ht2]
    simp only [Bool.not_true, Bool.false_eq_true, if_false, reduceIte]
    unfold ArchiveOps.listEntriesInternal
    rw [hcode2]
    simp only [if_pos rfl, henc2, if_true, reduceIte]

/-- Environment for the C4 witness: a listing with one encrypted entry. -/
def c4Env : ProcEnv :=
  { resolve := (fun s => "/w/" ++ s)
    listStdout := "Path = secret.txt\nSize = 3\nEncrypted = +\n\n" }

theorem encrypted_archive_rejected_witness :
    (ArchiveOps.listEntries c4Env {} "a.zip").1 =
      Except.error (EncryptedArchiveError "/w/a.zip") ∧
    (ArchiveOps.decompress c4Env {} "a.zip" "out" none).result =
      Except.error (EncryptedArchiveError "/w/a.zip") ∧
    (ArchiveOps.decompress c4Env {} "a.zip" "out" none).extractSpawn = none :=
  encrypted_archive_rejected c4Env c4Env {} {} "a.zip" "a.zip" "out" none
    rfl rfl (by decide) rfl (by decide) rfl rfl (by decide) rfl rfl (by decide)

/-- A FileInfo size the specification allows: a genuine integer, non-negative. -/
def sizeIsGood (v : Option Int) : Prop :=
  ∃ n : Int, v = some n ∧ 0 ≤ n

/-- The sizes an entry under construction can hold without breaking the bound:
absent (defaults to 0 later) or a non-negative integer. -/
def entrySizeOK : Option (Option Int) → Prop
  | none => True
  | some none => False
  | some (some n) => 0 ≤ n

/-- Flushing an entry with an acceptable size yields an acceptable FileInfo. -/
lemma convertToFileInfo_size {cur : SltFileEntry} {fi : FileInfo}
    (hcur : entrySizeOK cur.size) (h : convertToFileInfo cur = some fi) :
    sizeIsGood fi.size := by
  unfold convertToFileInfo at h
  cases hp : cur.path with
  | none => rw [hp] at h; cases h
  | some p =>
    rw [hp] at h
    split at h
    · cases h
    · split at h
      · cases h
      · split at h
        · cases h
        · obtain rfl := Option.some.inj h
          cases hs : cur.size with
          | none => exact ⟨0, rfl, le_refl 0⟩
          | some v =>
            rw [hs] at hcur
            cases v with
            | none => cases hcur
            | some n => exact ⟨n, rfl, hcur⟩

/-- `applySltKey` only touches the size on the `Size` key, where it stores the
parsed value. -/
lemma applySltKey_size (entry : SltFileEntry) (key value : String) :
    (applySltKey entry key value).size = entry.size ∨
    (key = "Size" ∧ (applySltKey entry key value).size = some (jsParseInt value)) := by
  unfold applySltKey
  split_ifs <;>
    first
      | exact Or.inl rfl
      | exact Or.inr ⟨by assumption, rfl⟩

/-- The parse loop preserves the size bound when every `Size` line of the
remaining input parses to a non-negative integer. -/
lemma parseSltLoop_sizes (lines : List String) :
    ∀ (files : List FileInfo) (cur : SltFileEntry),
      lines.all sizeLineOK = true →
      (∀ g ∈ files, sizeIsGood g.size) →
      entrySizeOK cur.size →
      ∀ f ∈ parseSltLoop lines files cur, sizeIsGood f.size := by
  induction lines with
  | nil =>
    intro files cur _ hfiles hcur f hf
    unfold parseSltLoop at hf
    rcases List.mem_append.mp hf with h | h
    · exact hfiles f h
    · cases hc : convertToFileInfo cur with
      | none => rw [hc] at h; cases h
      | some fi =>
        rw [hc] at h
        simp only [Option.toList_some, List.mem_singleton] at h
        subst h
        exact convertToFileInfo_size hcur hc
  | cons line rest ih =>
    intro files cur hall hfiles hcur f hf
    rw [List.all_cons, Bool.and_eq_true] at hall
    unfold parseSltLoop at hf
    dsimp only at hf
    by_cases hb : (jsTrim line).isEmpty = true
    · rw [if_pos hb] at hf
      refine ih _ {} hall.2 ?_ trivial f hf
      intro g hg
      rcases List.mem_append.mp hg with h | h
      · exact hfiles g h
      · cases hc : convertToFileInfo cur with
        | none => rw [hc] at h; cases h
        | some fi =>
          rw [hc] at h
          simp only [Option.toList_some, List.mem_singleton] at h
          subst h
          exact convertToFileInfo_size hcur hc
    · rw [if_neg hb] at hf
      cases hidx : strIndexOf (jsTrim line) " = " with
      | none => rw [hidx] at hf; exact ih files cur hall.2 hfiles hcur f hf
      | some i =>
        rw [hidx] at hf
        refine ih _ _ hall.2 hfiles ?_ f hf
        rcases applySltKey_size cur (String.mk ((jsTrim line).toList.take i))
            (String.mk ((jsTrim line).toList.drop (i + 3))) with heq | ⟨hk, heq⟩
        · rw [heq]; exact hcur
        · rw [heq]
          have hOK := hall.1
          unfold sizeLineOK sizeLineValue at hOK
          rw [hidx] at hOK
          dsimp only at hOK
          rw [if_pos hk] at hOK
          dsimp only at hOK
          cases hj : jsParseInt (String.mk ((jsTrim line).toList.drop (i + 3))) with
          | none => rw [hj] at hOK; simp at hOK
          | some n =>
            rw [hj] at hOK
            simpa [entrySizeOK] using hOK

/-- C9 (amended): for every input text whose `Size` values all parse (under JS
`parseInt` semantics) to non-negative integers — as the tool's listings do —
every FileInfo produced by `parseSltString` has a size that is a non-negative
integer; and a block carrying no `Size` key yields size 0. For other texts the
parsed value is stored unchecked (see the counterexample). -/
theorem parseSlt_sizes_nonneg (text : String)
    (h : (splitLinesJs text).all sizeLineOK = true) :
    (∀ f ∈ parseSltString text, ∃ n : Int, f.size = some n ∧ 0 ≤ n) ∧
    (∀ entry : SltFileEntry, entry.size = none →
      ∀ fi, convertToFileInfo entry = some fi → fi.size = some 0) := by
  constructor
  · intro f hf
    exact parseSltLoop_sizes (splitLinesJs text) [] {} h
      (by intro g hg; cases hg) trivial f hf
  · intro entry hnone fi hfi
    unfold convertToFileInfo at hfi
    cases hp : entry.path with
    | none => rw [hp] at hfi; cases hfi
    | some p =>
      rw [hp] at hfi
      split at hfi
      · cases hfi
      · split at hfi
        · cases hfi
        · split at hfi
          · cases hfi
          · obtain rfl := Option.some.inj hfi
            simp [hnone]

theorem parseSlt_sizes_nonneg_witness :
    ∃ n : Int, ({ filename := "a", size := some 7 } : FileInfo).size = some n ∧ 0 ≤ n :=
  (parseSlt_sizes_nonneg "Path = a\nSize = 7\n\n" (by decide)).1
    { filename := "a", size := some 7 } (by decide)
